import Mathlib

/-!
Shallow embedding of the commit-batching processing strategy in
`src/rust_snuba/rust_arroyo/src/processing/strategies/commit_offsets.rs`.

Time is modelled in nanoseconds as `Nat`.  Rust's `SystemTime` (on Unix a
`timespec` of `i64` seconds plus nanoseconds) has a largest representable
instant, so `SystemTime::checked_add` returns `None` when the sum leaves the
representable range; `Duration` (a `u64` of seconds plus nanoseconds) can be
strictly larger than any representable `SystemTime`.  The exact bounds only
matter in that `Duration::MAX` overflows every `checked_add`, which the
constants below reproduce.

The strategy mutates itself in place; the embedding passes the state
explicitly, and each method that reads the clock takes the value that
`SystemTime::now()` yields at that call as an argument (`commit` reads the
clock twice: once for the deadline comparison, once to reset
`last_commit_time`, hence its two clock arguments).  The `.unwrap()` on
`checked_add` panics when the addition overflows; a panic is modelled as
`Except.error CommitError.unwrapPanic`.
-/

/-- Modelled from the spec: `crate::types::Topic` is not under `src/`; the spec
says a Topic is "an identifier (name) naming a logical stream; equality is by
name". -/
structure Topic where
  name : String
deriving DecidableEq

/-- Modelled from the spec: `crate::types::Partition` is not under `src/`; the
spec says a Partition is a "(topic, non-negative index) pair" with structural
equality and hashing. -/
structure Partition where
  topic : Topic
  index : Nat
deriving DecidableEq

/-- Modelled from the spec: `crate::types::Message` is not under `src/`; the
spec says a Message is "(partition, offset, payload: opaque type parameter,
timestamp)" and "exposes a derived set of committable (partition, offset)
watermark pairs" — "normally a single pair ... but the contract allows a
message to represent a merge of several partitions' watermarks".  The derived
watermark set is carried as the field `committable`, which is all the
strategy reads. -/
structure Message (α : Type) where
  partition : Partition
  offset : Nat
  payload : α
  timestamp : Nat
  committable : List (Partition × Nat)

/-- Modelled from the spec: the backpressure "Rejected" signal of the stage
lifecycle contract (`crate::processing::strategies::MessageRejected`, not
under `src/`). -/
inductive MessageRejected where
  | mk
deriving DecidableEq

/-- The pending `HashMap<Partition, u64>`, modelled as an association list
without duplicate keys.  A HashMap's iteration order is arbitrary, so the
list order carries no information; every observation made of the map in this
development goes through `OffsetMap.getOffset` and emptiness. -/
abbrev OffsetMap := List (Partition × Nat)

/-- Lookup of the offset stored for a partition (`HashMap::get`). -/
def OffsetMap.getOffset : OffsetMap → Partition → Option Nat
  | [], _ => none
  | q :: rest, p => if q.1 = p then some q.2 else OffsetMap.getOffset rest p

/-- `HashMap::insert`: the value stored for the key is overwritten. -/
def OffsetMap.insert (m : OffsetMap) (p : Partition) (o : Nat) : OffsetMap :=
  (p, o) :: List.filter (fun q => !decide (q.1 = p)) m

/-- `crate::processing::strategies::CommitRequest` (declared outside `src/`,
used by the source file): "a mapping from Partition to offset". -/
structure CommitRequest where
  positions : OffsetMap
deriving DecidableEq

/-- Largest representable `SystemTime`, in nanoseconds since the epoch:
`i64::MAX` seconds plus `999_999_999` nanoseconds. -/
def systemTimeMaxNanos : Nat := (2 ^ 63 - 1) * 1000000000 + 999999999

/-- `Duration::MAX` in nanoseconds: `u64::MAX` seconds plus `999_999_999`
nanoseconds.  Strictly larger than `systemTimeMaxNanos`. -/
def durationMaxNanos : Nat := (2 ^ 64 - 1) * 1000000000 + 999999999

/-- `SystemTime::checked_add`: `none` when the sum is not representable. -/
def checkedAdd (t d : Nat) : Option Nat :=
  if t + d ≤ systemTimeMaxNanos then some (t + d) else none

/-- The one runtime failure the source file can raise: `.unwrap()` of the
`None` that `checked_add` returns on overflow. -/
inductive CommitError where
  | unwrapPanic
deriving DecidableEq

/-- The state of `CommitOffsets`: the pending partition-to-offset map, the
time of the last flush, and the commit frequency fixed at construction. -/
structure CommitOffsets where
  partitions : OffsetMap
  last_commit_time : Nat
  commit_frequency : Nat
deriving DecidableEq

/-- `CommitOffsets::commit(force)`, the internal flush routine.  `now` is what
`SystemTime::now()` yields at the deadline comparison and `nowf` what it
yields when `last_commit_time` is reset.  Faithful to the source's evaluation
order: the `.unwrap()` of `checked_add` runs before `|| force` is reached, so
overflow panics even on a forced flush. -/
def CommitOffsets.commit (s : CommitOffsets) (now nowf : Nat) (force : Bool) :
    Except CommitError (Option CommitRequest × CommitOffsets) :=
  match checkedAdd s.last_commit_time s.commit_frequency with
  | none => Except.error CommitError.unwrapPanic
  | some deadline =>
      if decide (deadline < now) || force then
        if !s.partitions.isEmpty then
          Except.ok (some { positions := s.partitions },
            { s with partitions := [], last_commit_time := nowf })
        else
          Except.ok (none, s)
      else
        Except.ok (none, s)

/-- `poll`: `self.commit(false)`. -/
def CommitOffsets.poll (s : CommitOffsets) (now nowf : Nat) :
    Except CommitError (Option CommitRequest × CommitOffsets) :=
  s.commit now nowf false

/-- `submit`: insert every `(partition, offset)` pair of the message's
committable set into the pending map, and return `Ok(())`. -/
def CommitOffsets.submit {α : Type} (s : CommitOffsets) (message : Message α) :
    Except MessageRejected Unit × CommitOffsets :=
  (Except.ok (),
    { s with partitions :=
        (List.foldl (fun m po => OffsetMap.insert m po.1 po.2)
          s.partitions message.committable) })

/-- `close`: a no-op. -/
def CommitOffsets.close (s : CommitOffsets) : CommitOffsets := s

/-- `terminate`: a no-op. -/
def CommitOffsets.terminate (s : CommitOffsets) : CommitOffsets := s

/-- `join(timeout)`: `self.commit(true)`; the timeout is ignored. -/
def CommitOffsets.join (s : CommitOffsets) (timeout : Option Nat)
    (now nowf : Nat) : Except CommitError (Option CommitRequest × CommitOffsets) :=
  s.commit now nowf true

/-- `commit_offsets::new(commit_frequency)`: empty pending map,
`last_commit_time` set to the construction time. -/
def CommitOffsets.new (commit_frequency : Nat) (now : Nat) : CommitOffsets :=
  { partitions := [], last_commit_time := now, commit_frequency := commit_frequency }

/-- Submitting a whole list of messages in order, threading the state. -/
def applySubmits {α : Type} (s : CommitOffsets) (ms : List (Message α)) :
    CommitOffsets :=
  List.foldl (fun st m => (st.submit m).2) s ms

/-- The most recently submitted committable offset for partition `p` across a
list of messages: later messages, and later pairs within one message's
committable set, supersede earlier ones. -/
def lastCommittable {α : Type} (ms : List (Message α)) (p : Partition) :
    Option Nat :=
  List.foldl
    (fun acc m =>
      List.foldl (fun a po => if po.1 = p then some po.2 else a) acc m.committable)
    none ms

/-- A concrete partition used by the concrete-input theorems below. -/
def partitionA : Partition := { topic := { name := "noop-commit" }, index := 0 }

/-- A second concrete partition. -/
def partitionB : Partition := { topic := { name := "noop-commit" }, index := 1 }

/-- A stage with one pending offset and a one-second commit frequency. -/
def stateC2 : CommitOffsets :=
  { partitions := [(partitionA, 1001)], last_commit_time := 0,
    commit_frequency := 1000000000 }

/-- A stage with a non-empty pending map and an overflowing commit frequency. -/
def stateC3 : CommitOffsets :=
  { partitions := [(partitionA, 7)], last_commit_time := 0,
    commit_frequency := durationMaxNanos }

/-- A stage with one pending offset and a one-second frequency, just flushed
at time 0. -/
def stateC3w : CommitOffsets :=
  { partitions := [(partitionA, 1001)], last_commit_time := 0,
    commit_frequency := 1000000000 }

/-- A stage whose deadline addition overflows while its elapsed time (0) does
not exceed its commit frequency. -/
def stateC6 : CommitOffsets :=
  { partitions := [(partitionA, 3)], last_commit_time := 0,
    commit_frequency := durationMaxNanos }

/-- A stage with an empty pending map and an overflowing commit frequency. -/
def stateC7 : CommitOffsets :=
  { partitions := [], last_commit_time := 5,
    commit_frequency := durationMaxNanos }

/-- An empty stage with a ten-nanosecond frequency constructed at time 7. -/
def stateC7w : CommitOffsets := CommitOffsets.new 10 7

/-- A stage with one pending offset, last flushed at 2, frequency 8. -/
def stateC9 : CommitOffsets :=
  { partitions := [(partitionA, 1)], last_commit_time := 2,
    commit_frequency := 8 }

/-- A stage with a non-empty pending map and an overflowing commit frequency,
for the flush-contract counterexample. -/
def stateC4 : CommitOffsets :=
  { partitions := [(partitionB, 9)], last_commit_time := 0,
    commit_frequency := durationMaxNanos }

/-- A concrete message whose committable set advances partitionA to 1001. -/
def wMsgC4 : Message Unit :=
  { partition := partitionA, offset := 1000, payload := (), timestamp := 0,
    committable := [(partitionA, 1001)] }

/-- First concrete message for partitionA, watermark 5. -/
def wMsgC5a : Message Unit :=
  { partition := partitionA, offset := 4, payload := (), timestamp := 0,
    committable := [(partitionA, 5)] }

/-- Second concrete message for partitionA, watermark 8. -/
def wMsgC5b : Message Unit :=
  { partition := partitionA, offset := 7, payload := (), timestamp := 0,
    committable := [(partitionA, 8)] }

/-- A fresh stage with a one-second frequency constructed at time 0. -/
def stateC5w : CommitOffsets := CommitOffsets.new 1000000000 0

theorem OffsetMap.getOffset_filter_ne (m : OffsetMap) (p q : Partition)
    (h : ¬ p = q) :
    OffsetMap.getOffset (List.filter (fun r => !decide (r.1 = p)) m) q
      = OffsetMap.getOffset m q := by
  induction m with
  | nil => rfl
  | cons r rest ih =>
    by_cases hr : r.1 = p
    · have hq : ¬ r.1 = q := fun hh => h (hr.symm.trans hh)
      simp [List.filter_cons, hr, OffsetMap.getOffset, hq, ih, h]
    · simp [List.filter_cons, hr, OffsetMap.getOffset, ih]

theorem OffsetMap.getOffset_insert (m : OffsetMap) (p q : Partition) (o : Nat) :
    OffsetMap.getOffset (OffsetMap.insert m p o) q
      = if p = q then some o else OffsetMap.getOffset m q := by
  by_cases h : p = q
  · simp [OffsetMap.insert, OffsetMap.getOffset, h]
  · simp [OffsetMap.insert, OffsetMap.getOffset, h,
      OffsetMap.getOffset_filter_ne m p q h]

theorem OffsetMap.insert_ne_nil (m : OffsetMap) (p : Partition) (o : Nat) :
    OffsetMap.insert m p o ≠ [] := by
  simp [OffsetMap.insert]

theorem OffsetMap.getOffset_foldl_insert (l : List (Partition × Nat))
    (m : OffsetMap) (p : Partition) :
    OffsetMap.getOffset
        (List.foldl (fun mm po => OffsetMap.insert mm po.1 po.2) m l) p
      = List.foldl (fun a po => if po.1 = p then some po.2 else a)
          (OffsetMap.getOffset m p) l := by
  induction l generalizing m with
  | nil => rfl
  | cons po rest ih =>
    rw [List.foldl_cons, List.foldl_cons, ih, OffsetMap.getOffset_insert]

theorem checkedAdd_eq_some {t f d : Nat} (h : checkedAdd t f = some d) :
    d = t + f ∧ t + f ≤ systemTimeMaxNanos := by
  unfold checkedAdd at h
  by_cases hle : t + f ≤ systemTimeMaxNanos
  · rw [if_pos hle] at h
    exact ⟨(Option.some.inj h).symm, hle⟩
  · rw [if_neg hle] at h
    simp at h

theorem checkedAdd_of_le {t f : Nat} (h : t + f ≤ systemTimeMaxNanos) :
    checkedAdd t f = some (t + f) := by
  unfold checkedAdd
  rw [if_pos h]

theorem applySubmits_frame {α : Type} (ms : List (Message α))
    (s : CommitOffsets) :
    (applySubmits s ms).last_commit_time = s.last_commit_time
      ∧ (applySubmits s ms).commit_frequency = s.commit_frequency := by
  induction ms generalizing s with
  | nil => exact ⟨rfl, rfl⟩
  | cons m rest ih => exact ih (CommitOffsets.submit s m).2

theorem getOffset_applySubmits {α : Type} (ms : List (Message α))
    (s : CommitOffsets) (p : Partition) :
    OffsetMap.getOffset (applySubmits s ms).partitions p
      = List.foldl
          (fun acc m =>
            List.foldl (fun a po => if po.1 = p then some po.2 else a)
              acc m.committable)
          (OffsetMap.getOffset s.partitions p) ms := by
  induction ms generalizing s with
  | nil => rfl
  | cons m rest ih =>
    show OffsetMap.getOffset
        (applySubmits (CommitOffsets.submit s m).2 rest).partitions p = _
    rw [ih, List.foldl_cons]
    have hsub : (CommitOffsets.submit s m).2.partitions
        = List.foldl (fun mm po => OffsetMap.insert mm po.1 po.2)
            s.partitions m.committable := rfl
    rw [hsub, OffsetMap.getOffset_foldl_insert]

theorem commit_eq_of_checkedAdd (s : CommitOffsets) (now nowf : Nat)
    (force : Bool) (d : Nat)
    (hd : checkedAdd s.last_commit_time s.commit_frequency = some d) :
    CommitOffsets.commit s now nowf force
      = if decide (d < now) || force then
          (if !s.partitions.isEmpty then
            Except.ok (some { positions := s.partitions },
              { s with partitions := [], last_commit_time := nowf })
          else
            Except.ok (none, s))
        else
          Except.ok (none, s) := by
  unfold CommitOffsets.commit
  rw [hd]

theorem isEmpty_false_of_ne_nil {l : OffsetMap} (h : l ≠ []) :
    l.isEmpty = false := by
  cases l with
  | nil => exact absurd rfl h
  | cons a t => rfl

theorem commit_flush_eq (s : CommitOffsets) (now nowf d : Nat) (force : Bool)
    (hd : checkedAdd s.last_commit_time s.commit_frequency = some d)
    (htrig : d < now ∨ force = true)
    (hne : s.partitions ≠ []) :
    CommitOffsets.commit s now nowf force
      = Except.ok (some { positions := s.partitions },
          { s with partitions := [], last_commit_time := nowf }) := by
  have hcond : (decide (d < now) || force) = true := by
    rcases htrig with h | h
    · simp [h]
    · simp [h]
  have hemp : (!s.partitions.isEmpty) = true := by
    simp [isEmpty_false_of_ne_nil hne]
  rw [commit_eq_of_checkedAdd s now nowf force d hd, if_pos hcond, if_pos hemp]

/-- Claim C1: the spec requires the timer arithmetic to saturate to "never
flushes on the timer" when `last_commit_time + commit_frequency` overflows the
time representation, and says poll/join "must not panic on overflow".  The
code instead calls `.unwrap()` on `checked_add`, which panics, and does so
before `|| force` is evaluated, so both `poll` and `join` fail fatally on a
stage configured with `Duration::MAX`. -/
theorem poll_panics_on_commit_frequency_overflow :
    (CommitOffsets.new durationMaxNanos 0).poll 0 0
        = Except.error CommitError.unwrapPanic
      ∧ (CommitOffsets.new durationMaxNanos 0).join (some 1000000000) 0 0
        = Except.error CommitError.unwrapPanic :=
  ⟨rfl, rfl⟩

/-- Claim C2 counterexample: `terminate()` is a no-op in the code, so the
pending map is NOT empty afterwards, and a subsequent `join()` on the
otherwise-unchanged stage flushes the pending offset instead of returning
nothing. -/
theorem terminate_then_join_flushes_cex :
    (stateC2.terminate).partitions = [(partitionA, 1001)]
      ∧ (stateC2.terminate).join (some 5000000000) 500 500
        = Except.ok (some { positions := [(partitionA, 1001)] },
            { partitions := [], last_commit_time := 500,
              commit_frequency := 1000000000 }) :=
  ⟨rfl, rfl⟩

/-- Claim C2 amended: `terminate()` is a no-op; it leaves the whole stage
state, including the pending partition-to-offset map, unchanged and emits no
commit request.  Pending state is discarded only when the stage is destroyed,
and a subsequent `join()` flushes whatever is still pending. -/
theorem terminate_is_noop (s : CommitOffsets) : s.terminate = s := rfl

/-- Claim C8: `submit` returns success for every message and every stage
state; the commit-batching stage never raises the backpressure `Rejected`
signal. -/
theorem submit_never_rejects {α : Type} (s : CommitOffsets)
    (message : Message α) :
    (s.submit message).1 = Except.ok () := rfl

/-- Claim C10: `submit` modifies only the pending partition-to-offset map;
`last_commit_time` and `commit_frequency` are unchanged by every submit call,
so submissions alone can never advance, delay, or trigger the flush timer. -/
theorem submit_frame {α : Type} (s : CommitOffsets) (message : Message α) :
    (s.submit message).2.last_commit_time = s.last_commit_time
      ∧ (s.submit message).2.commit_frequency = s.commit_frequency :=
  ⟨rfl, rfl⟩

/-- Claim C3 counterexample: with `commit_frequency = Duration::MAX` the
deadline addition overflows, and `join` panics on the `.unwrap()` instead of
returning a commit request, even though the pending map is non-empty — so
`join` is not independent of `commit_frequency`. -/
theorem join_overflow_panics_cex :
    stateC3.partitions = [(partitionA, 7)]
      ∧ stateC3.join (some 5) 0 0 = Except.error CommitError.unwrapPanic :=
  ⟨rfl, rfl⟩

/-- Claim C3 amended: provided `last_commit_time + commit_frequency` does not
overflow the time representation (otherwise `join` panics), `join(timeout)`
flushes a non-empty pending map into a commit request regardless of elapsed
time, of the clock value, of `commit_frequency` and of the timeout argument,
and returns nothing on an empty pending map. -/
theorem join_flushes_pending_unconditionally (s : CommitOffsets)
    (timeout : Option Nat) (now nowf d : Nat)
    (hd : checkedAdd s.last_commit_time s.commit_frequency = some d) :
    s.join timeout now nowf
      = Except.ok
          (if s.partitions.isEmpty then (none, s)
            else (some { positions := s.partitions },
              { s with partitions := [], last_commit_time := nowf })) := by
  unfold CommitOffsets.join
  rw [commit_eq_of_checkedAdd s now nowf true d hd]
  have hcond : (decide (d < now) || true) = true := by simp
  rw [if_pos hcond]
  by_cases hp : s.partitions.isEmpty = true
  · rw [if_neg (by simp [hp] : ¬ ((!s.partitions.isEmpty) = true)), if_pos hp]
  · rw [if_pos (by simp [hp] : (!s.partitions.isEmpty) = true), if_neg hp]

/-- Concrete instance of the amended claim C3 at a stage with one pending
offset, three nanoseconds after construction, well before the frequency. -/
theorem join_flushes_pending_unconditionally_witness :
    stateC3w.join none 3 3
      = Except.ok
          (if stateC3w.partitions.isEmpty then (none, stateC3w)
            else (some { positions := stateC3w.partitions },
              { stateC3w with partitions := [], last_commit_time := 3 })) :=
  join_flushes_pending_unconditionally stateC3w none 3 3 1000000000 (by decide)

/-- Claim C6 counterexample: at a clock value whose elapsed time since the
last flush (zero) does not exceed the configured commit frequency, `poll`
panics on the overflowing deadline addition instead of returning nothing and
leaving the state unchanged. -/
theorem poll_quiescent_overflow_cex :
    0 - stateC6.last_commit_time ≤ stateC6.commit_frequency
      ∧ stateC6.poll 0 0 = Except.error CommitError.unwrapPanic :=
  ⟨by decide, rfl⟩

/-- Claim C6 amended: provided `last_commit_time + commit_frequency` does not
overflow the time representation (otherwise `poll` panics), whenever the
elapsed time since the last flush does not exceed the commit frequency,
`poll` returns nothing and leaves the entire stage state unchanged, even if
the pending map is non-empty. -/
theorem poll_quiescent_before_frequency (s : CommitOffsets) (now nowf d : Nat)
    (hd : checkedAdd s.last_commit_time s.commit_frequency = some d)
    (hle : now - s.last_commit_time ≤ s.commit_frequency) :
    s.poll now nowf = Except.ok (none, s) := by
  obtain ⟨hdd, hmax⟩ := checkedAdd_eq_some hd
  have hnow : ¬ d < now := by
    rw [hdd]
    omega
  have hcond : ¬ ((decide (d < now) || false) = true) := by simp [hnow]
  unfold CommitOffsets.poll
  rw [commit_eq_of_checkedAdd s now nowf false d hd, if_neg hcond]

/-- Concrete instance of the amended claim C6: one pending offset, five
nanoseconds elapsed of a one-second frequency; `poll` is a no-op. -/
theorem poll_quiescent_before_frequency_witness :
    stateC3w.poll 5 5 = Except.ok (none, stateC3w) :=
  poll_quiescent_before_frequency stateC3w 5 5 1000000000 (by decide) (by decide)

/-- Claim C7 counterexample: on a stage whose pending map is empty, a flush
attempt (`join`, i.e. force) panics on the overflowing deadline addition
instead of returning nothing and changing nothing. -/
theorem empty_flush_overflow_cex :
    stateC7.partitions = []
      ∧ stateC7.join none 6 6 = Except.error CommitError.unwrapPanic :=
  ⟨rfl, rfl⟩

/-- Claim C7 amended: provided `last_commit_time + commit_frequency` does not
overflow the time representation (otherwise the flush attempt panics), a
flush attempt on an empty pending map — forced or on the timer, at any clock
value — returns nothing and leaves the stage unchanged; in particular
`last_commit_time` still reflects the previous successful flush (or
construction time). -/
theorem flush_empty_map_noop (s : CommitOffsets) (now nowf d : Nat)
    (force : Bool)
    (hp : s.partitions = [])
    (hd : checkedAdd s.last_commit_time s.commit_frequency = some d) :
    s.commit now nowf force = Except.ok (none, s) := by
  rw [commit_eq_of_checkedAdd s now nowf force d hd]
  have hemp : ¬ ((!s.partitions.isEmpty) = true) := by simp [hp]
  by_cases hc : (decide (d < now) || force) = true
  · rw [if_pos hc, if_neg hemp]
  · rw [if_neg hc]

/-- Concrete instance of the amended claim C7: a forced flush on an empty
stage long after the frequency elapsed returns nothing and changes nothing. -/
theorem flush_empty_map_noop_witness :
    stateC7w.commit 100 100 true = Except.ok (none, stateC7w) :=
  flush_empty_map_noop stateC7w 100 100 17 true rfl (by decide)

/-- Claim C9: the flush-timer comparison is strict.  At a clock value exactly
equal to `last_commit_time + commit_frequency` (elapsed time exactly equal to
the frequency), `poll` returns nothing and does not flush, whatever the
pending map holds; and whenever `poll` does return a commit request, the
clock value strictly exceeds `last_commit_time + commit_frequency`.  The
hypothesis keeps the deadline inside the representable time range; the
boundary instant only exists when it does. -/
theorem poll_timer_strict (s : CommitOffsets) (now nowf : Nat)
    (hno : s.last_commit_time + s.commit_frequency ≤ systemTimeMaxNanos) :
    (now = s.last_commit_time + s.commit_frequency →
        s.poll now nowf = Except.ok (none, s))
      ∧ (∀ r s', s.poll now nowf = Except.ok (some r, s') →
          s.last_commit_time + s.commit_frequency < now) := by
  have hd : checkedAdd s.last_commit_time s.commit_frequency
      = some (s.last_commit_time + s.commit_frequency) := checkedAdd_of_le hno
  constructor
  · intro hb
    have hnow : ¬ s.last_commit_time + s.commit_frequency < now := by omega
    have hcond :
        ¬ ((decide (s.last_commit_time + s.commit_frequency < now) || false)
          = true) := by simp [hnow]
    unfold CommitOffsets.poll
    rw [commit_eq_of_checkedAdd s now nowf false _ hd, if_neg hcond]
  · intro r s' hpoll
    by_contra hnot
    have hcond :
        ¬ ((decide (s.last_commit_time + s.commit_frequency < now) || false)
          = true) := by simp [hnot]
    unfold CommitOffsets.poll at hpoll
    rw [commit_eq_of_checkedAdd s now nowf false _ hd, if_neg hcond] at hpoll
    simp at hpoll

/-- Concrete instance of claim C9 at the exact boundary: clock value 10 with
last flush at 2 and frequency 8. -/
theorem poll_timer_strict_witness :
    (10 = stateC9.last_commit_time + stateC9.commit_frequency →
        stateC9.poll 10 3 = Except.ok (none, stateC9))
      ∧ (∀ r s', stateC9.poll 10 3 = Except.ok (some r, s') →
          stateC9.last_commit_time + stateC9.commit_frequency < 10) :=
  poll_timer_strict stateC9 10 3 (by decide)

/-- Claim C4 counterexample: `join` is called on a stage with a non-empty
pending map, but instead of returning a commit request, emptying the map and
resetting `last_flush_time`, the flush panics, because the deadline addition
overflows with `commit_frequency = Duration::MAX`. -/
theorem flush_contract_overflow_cex :
    stateC4.partitions ≠ []
      ∧ stateC4.join none 1 1 = Except.error CommitError.unwrapPanic :=
  ⟨by decide, rfl⟩

/-- Claim C4 amended: provided the deadline additions do not overflow the
time representation (otherwise the flush panics), whenever the commit
frequency has elapsed (for `poll`) or the flush is forced (`join`), and the
pending map built by the submissions since construction is non-empty, the
flush returns a commit request whose entries exactly equal the most recently
submitted offset per partition, empties the pending map, sets
`last_commit_time` to the flush time, and an immediate subsequent `poll`
returns nothing. -/
theorem flush_returns_latest_offsets_and_resets
    (freq t0 : Nat) (ms : List (Message Unit)) (p : Partition)
    (now nowf d now2 nf2 d2 : Nat) (force : Bool)
    (hd : checkedAdd t0 freq = some d)
    (htrig : d < now ∨ force = true)
    (hne : (applySubmits (CommitOffsets.new freq t0) ms).partitions ≠ [])
    (hd2 : checkedAdd nowf freq = some d2) :
    (applySubmits (CommitOffsets.new freq t0) ms).commit now nowf force
        = Except.ok
            (some { positions :=
                (applySubmits (CommitOffsets.new freq t0) ms).partitions },
              { partitions := [], last_commit_time := nowf,
                commit_frequency := freq })
      ∧ OffsetMap.getOffset
            (applySubmits (CommitOffsets.new freq t0) ms).partitions p
          = lastCommittable ms p
      ∧ CommitOffsets.poll
            { partitions := [], last_commit_time := nowf,
              commit_frequency := freq } now2 nf2
          = Except.ok (none,
              { partitions := [], last_commit_time := nowf,
                commit_frequency := freq }) := by
  obtain ⟨hl, hf⟩ := applySubmits_frame ms (CommitOffsets.new freq t0)
  refine ⟨?_, ?_, ?_⟩
  · have hd' : checkedAdd
        (applySubmits (CommitOffsets.new freq t0) ms).last_commit_time
        (applySubmits (CommitOffsets.new freq t0) ms).commit_frequency
        = some d := by
      rw [hl, hf]
      exact hd
    rw [commit_flush_eq _ now nowf d force hd' htrig hne, hf]
    rfl
  · rw [getOffset_applySubmits]
    rfl
  · unfold CommitOffsets.poll
    rw [commit_eq_of_checkedAdd _ now2 nf2 false d2 hd2]
    simp

/-- Concrete instance of the amended claim C4: frequency 10, constructed at
time 0, one submission, timer elapsed at time 11. -/
theorem flush_returns_latest_offsets_and_resets_witness :
    (applySubmits (CommitOffsets.new 10 0) [wMsgC4]).commit 11 11 false
        = Except.ok
            (some { positions :=
                (applySubmits (CommitOffsets.new 10 0) [wMsgC4]).partitions },
              { partitions := [], last_commit_time := 11,
                commit_frequency := 10 })
      ∧ OffsetMap.getOffset
            (applySubmits (CommitOffsets.new 10 0) [wMsgC4]).partitions
            partitionA
          = lastCommittable [wMsgC4] partitionA
      ∧ CommitOffsets.poll
            { partitions := [], last_commit_time := 11,
              commit_frequency := 10 } 12 12
          = Except.ok (none,
              { partitions := [], last_commit_time := 11,
                commit_frequency := 10 }) :=
  flush_returns_latest_offsets_and_resets 10 0 [wMsgC4] partitionA
    11 11 10 12 12 21 false (by decide) (Or.inl (by decide)) (by decide)
    (by decide)

/-- Claim C5: last-write-wins.  Submitting two messages whose committable
sets carry offsets for the same partition, in order and between two flushes,
leaves only the later offset stored for that partition, and the next emitted
commit request (here: a forced flush) carries exactly that pending map, so
only the later offset appears in it. -/
theorem last_write_wins (s : CommitOffsets) (m1 m2 : Message Unit)
    (p : Partition) (o1 o2 now nowf d : Nat)
    (h1 : m1.committable = [(p, o1)])
    (h2 : m2.committable = [(p, o2)])
    (hd : checkedAdd s.last_commit_time s.commit_frequency = some d) :
    OffsetMap.getOffset
        (CommitOffsets.submit (CommitOffsets.submit s m1).2 m2).2.partitions p
        = some o2
      ∧ CommitOffsets.join
          (CommitOffsets.submit (CommitOffsets.submit s m1).2 m2).2
          none now nowf
        = Except.ok
            (some { positions :=
                (CommitOffsets.submit
                  (CommitOffsets.submit s m1).2 m2).2.partitions },
              { (CommitOffsets.submit (CommitOffsets.submit s m1).2 m2).2 with
                  partitions := [], last_commit_time := nowf }) := by
  have hp1 : (CommitOffsets.submit s m1).2.partitions
      = OffsetMap.insert s.partitions p o1 := by
    have hh : (CommitOffsets.submit s m1).2.partitions
        = List.foldl (fun m po => OffsetMap.insert m po.1 po.2)
            s.partitions m1.committable := rfl
    rw [hh, h1]
    rfl
  have hp2 : (CommitOffsets.submit (CommitOffsets.submit s m1).2 m2).2.partitions
      = OffsetMap.insert (OffsetMap.insert s.partitions p o1) p o2 := by
    have hh : (CommitOffsets.submit
          (CommitOffsets.submit s m1).2 m2).2.partitions
        = List.foldl (fun m po => OffsetMap.insert m po.1 po.2)
            (CommitOffsets.submit s m1).2.partitions m2.committable := rfl
    rw [hh, h2, hp1]
    rfl
  constructor
  · rw [hp2, OffsetMap.getOffset_insert]
    simp
  · have hne : (CommitOffsets.submit
        (CommitOffsets.submit s m1).2 m2).2.partitions ≠ [] := by
      rw [hp2]
      exact OffsetMap.insert_ne_nil _ p o2
    unfold CommitOffsets.join
    exact commit_flush_eq _ now nowf d true hd (Or.inr rfl) hne

/-- Concrete instance of claim C5: after submitting watermarks 5 then 8 for
the same partition, only 8 is pending and only 8 is flushed. -/
theorem last_write_wins_witness :
    OffsetMap.getOffset
        (CommitOffsets.submit
          (CommitOffsets.submit stateC5w wMsgC5a).2 wMsgC5b).2.partitions
        partitionA
        = some 8
      ∧ CommitOffsets.join
          (CommitOffsets.submit
            (CommitOffsets.submit stateC5w wMsgC5a).2 wMsgC5b).2
          none 1 1
        = Except.ok
            (some { positions :=
                (CommitOffsets.submit
                  (CommitOffsets.submit stateC5w wMsgC5a).2 wMsgC5b).2.partitions },
              { (CommitOffsets.submit
                  (CommitOffsets.submit stateC5w wMsgC5a).2 wMsgC5b).2 with
                  partitions := [], last_commit_time := 1 }) :=
  last_write_wins stateC5w wMsgC5a wMsgC5b partitionA 5 8 1 1 1000000000
    rfl rfl (by decide)
